import Mathlib

/-!
# Verification of `apstndb/tokensource`

Shallow embedding of the repository's Go code:

* `refresh.go` — `AsyncRefreshingTokenSource` with its constructor
  `NewAsyncRefreshingTokenSource`, the refresh worker `flip`, the
  background loop `run` (with its inner `handleExpiry`), and the
  accessor `Token()`.
* the Smart token-source file — `parseDelegateChain` /
  `ParseDelegateChain`.

Modelling conventions:

* Go strings are modelled as `List Char` where character-level structure
  matters (`parseDelegateChain`), and as `String` for opaque values
  (access tokens).
* `time.Time` / `time.Duration` are modelled as `ℤ` (seconds); the Go
  zero time is `0` (`IsZero` becomes `= 0`).  Go computes jitter in
  `float64` and truncates at each conversion to `time.Duration`; the
  model carries the float values as exact fractions (`Frac`) and
  truncates with `Int.tdiv` at the same two conversion points.
* Go errors are opaque values, modelled as `Nat`; error identity
  ("returned verbatim") is equality of these values.
* `context.Context` is modelled as an opaque handle `Option Nat`; the Go
  `nil` interface value is `none`.
* The generator capability `genFunc` together with the one-shot
  `tokenSource.Token()` fetch it yields is modelled as a stream
  `gen : Nat → GenOutcome`: the n-th generator invocation made by the
  token source observes `gen n`.  A `genErr` outcome is a generator call
  whose own error return is non-nil (no fetch happens); `fetchErr` is a
  successful generator call whose fetch fails; `ok` is a successful
  generator call whose fetch yields a token.
* `conf.Backoff` (a `backoff.BackOff`) is modelled by its observable
  effect on `backoff.Retry`: the number of consecutive failures for
  which `NextBackOff` returns a delay rather than `backoff.Stop`.  Each
  `backoff.Retry` call resets the policy, so this budget is per refresh
  attempt.  The default `backoff.NewExponentialBackOff()` (initial
  interval 500 ms, max elapsed time 15 min) yields a positive budget:
  its first `NextBackOff` after a failure is never `Stop`.
-/

namespace Tokensource

/-- Opaque Go error values. -/
abbrev Err := Nat

/-- `context.Context` handles; `none` is the Go `nil` interface value. -/
abbrev CtxHandle := Option Nat

/-- `golang.org/x/oauth2` `defaultExpiryDelta = 10 * time.Second`. -/
def expiryDelta : ℤ := 10

/-- `oauth2.Token`, restricted to the fields `refresh.go` reads:
`AccessToken` and `Expiry` (`0` models the zero `time.Time`). -/
structure Token where
  accessToken : String
  expiry : ℤ
deriving Repr, DecidableEq

/-- `oauth2.Token.expired()`: a zero expiry never expires; otherwise the
token is expired once `Expiry - expiryDelta` is before the current time. -/
def Token.expired (now : ℤ) (t : Token) : Bool :=
  if t.expiry = 0 then false else decide (t.expiry - expiryDelta < now)

/-- `oauth2.Token.Valid()` on a possibly-nil `*oauth2.Token`:
`t != nil && t.AccessToken != "" && !t.expired()`. -/
def tokenValid (now : ℤ) (t : Option Token) : Bool :=
  match t with
  | none => false
  | some t => t.accessToken ≠ "" && !(t.expired now)

end Tokensource

namespace Tokensource

/-! ## `parseDelegateChain` (Smart token sources)

`strings.Split(s, ",")` on a comma separator, over `List Char`. -/

/-- `strings.Split(s, ",")`: the comma-separated segments of `s`
(`splitComma [] = [[]]`, like Go's `strings.Split("", ",") = [""]`). -/
def splitComma : List Char → List (List Char)
  | [] => [[]]
  | c :: rest =>
    if c = ',' then [] :: splitComma rest
    else
      match splitComma rest with
      | [] => [[c]]
      | s :: ss => (c :: s) :: ss

/-- `strings.Join(ss, ",")`: interpose a comma between the segments. -/
def joinComma : List (List Char) → List Char
  | [] => []
  | [s] => s
  | s :: ss => s ++ ',' :: joinComma ss

/-- `ss[len(ss)-1]` for the (always non-empty) result of `splitComma`:
the last segment.  The `[]` case is unreachable. -/
def lastSeg : List (List Char) → List Char
  | [] => []
  | [s] => s
  | _ :: rest => lastSeg rest

/-- `parseDelegateChain` (and its exported twin `ParseDelegateChain`):
panics (modelled as `none`) on the empty string; otherwise splits on
commas and returns `(targetPrincipal, delegates) =
(ss[len(ss)-1], ss[:len(ss)-1])`. -/
def parseDelegateChain (s : List Char) : Option (List Char × List (List Char)) :=
  if s = [] then none
  else
    let ss := splitComma s
    some (lastSeg ss, ss.dropLast)

/-! ## `refresh.go` — data model -/

/-- A `float64` value carried as an exact fraction `num / den`
(`den > 0` in every use); Go's truncating conversions to
`time.Duration` become `Int.tdiv` (division rounding toward zero). -/
structure Frac where
  num : ℤ
  den : ℤ
deriving Repr, DecidableEq

/-- `AsyncRefreshingConfig` (`refresh.go`).  `backoffBudget` models the
`Backoff backoff.BackOff` field by the number of consecutive failures
for which its `NextBackOff` yields a delay rather than `backoff.Stop`
(`none` models a nil `Backoff`); the randomization factors are the
`float64` fields as exact fractions. -/
structure AsyncRefreshingConfig where
  marginBeforeExpiry : ℤ := 0
  randomizationFactorForMarginBeforeExpiry : Frac := ⟨0, 1⟩
  refreshInterval : ℤ := 0
  randomizationFactorForRefreshInterval : Frac := ⟨0, 1⟩
  backoffBudget : Option Nat := none
  isRetryable : Option (Err → Bool) := none

/-- `const defaultInterval = 30 * time.Minute`, in seconds. -/
def defaultInterval : ℤ := 1800

/-- What one generator invocation (`ts.genFunc(ctx)` followed, on
success, by one `tokenSource.Token()` fetch) observes:
* `genErr e` — `genFunc` itself returned the error `e` (no fetch);
* `fetchErr e` — `genFunc` succeeded and the fetch returned `e`;
* `ok t` — `genFunc` succeeded and the fetch yielded the token `t`. -/
inductive GenOutcome where
  | genErr (e : Err)
  | fetchErr (e : Err)
  | ok (t : Token)
deriving Repr, DecidableEq

/-- The condition under which `flip` wraps a fetch error as
`backoff.Permanent`: `ts.conf.IsRetryable == nil || !ts.conf.IsRetryable(err)`.
Generator-call errors (`genErr`) are returned plain and never reach
this check. -/
def isPermanentFetchErr (isR : Option (Err → Bool)) (e : Err) : Bool :=
  match isR with
  | none => true
  | some p => !(p e)

/-- What one `backoff.Retry` run inside `flip` did: how many generator
calls and fetches it made, and the token or error it ended with. -/
structure RetryResult where
  genCalls : Nat
  fetchCalls : Nat
  result : Except Err Token
deriving Repr

/-- `backoff.Retry(op, ts.conf.Backoff)` with `op` the closure inside
`flip`: the n-th generator call observes `gen n`; a `backoff.Permanent`
error stops immediately (and `Retry` unwraps it); any other error is
retried while the backoff budget lasts, and returned once `NextBackOff`
yields `Stop`.  `idx` is the index of the next generator call, `budget`
the remaining non-`Stop` `NextBackOff` answers. -/
def flipRetry (isR : Option (Err → Bool)) (gen : Nat → GenOutcome) :
    Nat → Nat → RetryResult
  | idx, budget =>
    match gen idx with
    | .ok t => ⟨1, 1, .ok t⟩
    | .genErr e =>
      match budget with
      | 0 => ⟨1, 0, .error e⟩
      | b + 1 =>
        let r := flipRetry isR gen (idx + 1) b
        ⟨r.genCalls + 1, r.fetchCalls, r.result⟩
    | .fetchErr e =>
      if isPermanentFetchErr isR e then ⟨1, 1, .error e⟩
      else
        match budget with
        | 0 => ⟨1, 1, .error e⟩
        | b + 1 =>
          let r := flipRetry isR gen (idx + 1) b
          ⟨r.genCalls + 1, r.fetchCalls + 1, r.result⟩

/-- The observable outcome of one `AsyncRefreshingTokenSource.flip` call:
the value written into `ts.token` (written unconditionally — on failure
the local `token` variable is still nil, refresh.go:111–113), the expiry
it returns (`0`, the zero time, on failure), its error, the number of
generator calls made, and the context each of them received. -/
structure FlipResult where
  newToken : Option Token
  expiry : ℤ
  err : Option Err
  genCalls : Nat
  fetchCalls : Nat
  ctxPassed : CtxHandle
deriving Repr

/-- `AsyncRefreshingTokenSource.flip(ctx)`: run the retry loop, then
`ts.mu.Lock(); ts.token = token; ts.mu.Unlock()`, then return
`(token.Expiry, nil)` on success or `(time.Time{}, err)` on failure.
The assignment `ts.token = token` happens before the error check, so on
failure it stores nil. -/
def flip (isR : Option (Err → Bool)) (budget : Nat) (ctx : CtxHandle)
    (gen : Nat → GenOutcome) (idx : Nat) : FlipResult :=
  let r := flipRetry isR gen idx budget
  match r.result with
  | .ok t => ⟨some t, t.expiry, none, r.genCalls, r.fetchCalls, ctx⟩
  | .error e => ⟨none, 0, some e, r.genCalls, r.fetchCalls, ctx⟩

/-- The `AsyncRefreshingTokenSource` struct: the mutable `token` field,
the (default-resolved) config, and the `ctx` field.  The Go struct
declares `ctx context.Context` ("stored because genFunc use
context.Context but TokenSource.Token() doesn't take context.Context"),
but no code ever assigns it, so it always holds the zero value `none`. -/
structure AsyncRefreshingTokenSource where
  token : Option Token
  conf : AsyncRefreshingConfig
  ctx : CtxHandle

/-- The observable outcome of one `Token()` call: the new value of
`ts.token`, the returned `(*oauth2.Token, error)` pair, the number of
generator calls and fetches made, and — when a generator call happened —
the context it received (`some c` records a call with context `c`). -/
structure TokenCallResult where
  newToken : Option Token
  result : Except Err Token
  genCalls : Nat
  fetchCalls : Nat
  ctxPassed : Option CtxHandle
deriving Repr

/-- `AsyncRefreshingTokenSource.Token()`: under `ts.mu`, if
`ts.token.Valid()` return it; otherwise call `ts.genFunc(ts.ctx)` once
and, on success, fetch once (no backoff), storing the fetched token on
success and leaving `ts.token` unchanged on any error. -/
def tokenMethod (ts : AsyncRefreshingTokenSource) (gen : Nat → GenOutcome)
    (idx : Nat) (now : ℤ) : TokenCallResult :=
  if h : tokenValid now ts.token then
    match ts.token, h with
    | some t, _ => ⟨some t, .ok t, 0, 0, none⟩
    | none, h => absurd h (by simp [tokenValid])
  else
    match gen idx with
    | .genErr e => ⟨ts.token, .error e, 1, 0, some ts.ctx⟩
    | .fetchErr e => ⟨ts.token, .error e, 1, 1, some ts.ctx⟩
    | .ok t => ⟨some t, .ok t, 1, 1, some ts.ctx⟩

/-- The observable outcome of `NewAsyncRefreshingTokenSource`: the
constructed value (`none` when it returns `nil, err`, in which case no
`run` goroutine is started), the `expiry` handed to `run`, the error,
and the generator-call count of the synchronous first `flip`. -/
structure NewResult where
  ts : Option AsyncRefreshingTokenSource
  initialExpiry : ℤ
  err : Option Err
  genCalls : Nat

/-- `NewAsyncRefreshingTokenSource(ctx, conf, genFunc)`: default the
interval and the backoff (`defaultBudget` is the budget of
`backoff.NewExponentialBackOff()`), build
`&AsyncRefreshingTokenSource{genFunc: genFunc, conf: conf}` — note the
`ctx` field is left at its zero value — run `flip(ctx)` synchronously,
and return the error (starting no goroutine) if it failed. -/
def NewAsyncRefreshingTokenSource (defaultBudget : Nat) (ctx : CtxHandle)
    (conf : AsyncRefreshingConfig) (gen : Nat → GenOutcome) : NewResult :=
  let conf :=
    { conf with
      refreshInterval :=
        if conf.refreshInterval = 0 then defaultInterval else conf.refreshInterval
      backoffBudget := some (conf.backoffBudget.getD defaultBudget) }
  let b : AsyncRefreshingTokenSource := { token := none, conf := conf, ctx := none }
  let r := flip conf.isRetryable (conf.backoffBudget.getD defaultBudget) ctx gen 0
  match r.err with
  | some e => ⟨none, 0, some e, r.genCalls⟩
  | none => ⟨some { b with token := r.newToken }, r.expiry, none, r.genCalls⟩

/-! ## The background loop `run` -/

/-- The inner `handleExpiry` closure of `run`: arm the expiry wait
channel only if `MarginBeforeExpiry` is configured and the expiry is
non-zero; its target time is `expiry - margin + jitter`, where
`delta = time.Duration(factor * float64(margin))`,
`plusMinus1 = 2*(u - 0.5) ∈ [-1,1)` for the `rand.Float64()` sample
`u = u.num/u.den ∈ [0,1)`, and `jitter = time.Duration(plusMinus1 *
float64(delta))`; both `time.Duration` conversions truncate toward
zero (`Int.tdiv`).  Returns the target time of the armed channel
(`none` models the nil channel). -/
def handleExpiry (conf : AsyncRefreshingConfig) (u : Frac) (expiry : ℤ) : Option ℤ :=
  if conf.marginBeforeExpiry ≠ 0 ∧ expiry ≠ 0 then
    let f := conf.randomizationFactorForMarginBeforeExpiry
    let delta : ℤ := Int.tdiv (f.num * conf.marginBeforeExpiry) f.den
    let plusMinus1 : Frac := ⟨2 * u.num - u.den, u.den⟩
    let jitter : ℤ := Int.tdiv (plusMinus1.num * delta) plusMinus1.den
    some (expiry + (-conf.marginBeforeExpiry + jitter))
  else none

/-- State of the `run` goroutine between `select` iterations: the token
source it mutates, the armed expiry channel's target time
(`waitUntilExpiryC`, `none` = nil channel), whether the loop has
returned, and how many generator calls the background path has made
(the index of the next one in the `gen` stream). -/
structure RunState where
  ts : AsyncRefreshingTokenSource
  waitUntilExpiryC : Option ℤ
  stopped : Bool
  genIdx : Nat

/-- Which `select` case fires in one iteration of `run`'s loop:
`ctx.Done()`, the jittered ticker, or the expiry wait channel. -/
inductive RunEvent where
  | ctxDone
  | tick
  | expiryFired
deriving Repr, DecidableEq

/-- One iteration of `run`'s `select` loop.  `ctx` is the construction
context `run` passes into `flip`; `u` is the `rand.Float64()` sample of
the `handleExpiry` call that re-arms the channel.  On `ctxDone` the
loop returns; a `tick` is ignored while `waitUntilExpiryC` is armed (a
nil channel never fires, so `expiryFired` with a nil channel is a
no-op); otherwise `flip` runs, its token is stored, and the channel is
re-armed from the returned expiry (the flip error is only logged). -/
def runStep (ctx : CtxHandle) (gen : Nat → GenOutcome) (u : Frac)
    (st : RunState) (ev : RunEvent) : RunState :=
  if st.stopped then st
  else
    let doFlip : RunState :=
      let budget := st.ts.conf.backoffBudget.getD 0
      let r := flip st.ts.conf.isRetryable budget ctx gen st.genIdx
      { st with
        ts := { st.ts with token := r.newToken }
        genIdx := st.genIdx + r.genCalls
        waitUntilExpiryC := handleExpiry st.ts.conf u r.expiry }
    match ev with
    | .ctxDone => { st with stopped := true }
    | .tick => if st.waitUntilExpiryC.isSome then st else doFlip
    | .expiryFired =>
      match st.waitUntilExpiryC with
      | none => st
      | some _ => doFlip

/-! ## Lock-discipline traces

Atomic events of a refresh path, in program order, for reasoning about
what runs while `ts.mu` — the one lock `Token()` readers must take — is
held. -/

/-- Atomic events: acquiring/releasing `ts.mu`, a `genFunc` call, a
`tokenSource.Token()` fetch, a write to `ts.token`. -/
inductive LockEv where
  | lock
  | unlock
  | genCall
  | fetch
  | cacheWrite
deriving Repr, DecidableEq

/-- The network-I/O events of the retry loop inside `flip`, in order
(no lock events: the loop runs before `ts.mu.Lock()`). -/
def retryTrace (isR : Option (Err → Bool)) (gen : Nat → GenOutcome) :
    Nat → Nat → List LockEv
  | idx, 0 =>
    match gen idx with
    | .ok _ => [.genCall, .fetch]
    | .genErr _ => [.genCall]
    | .fetchErr _ => [.genCall, .fetch]
  | idx, b + 1 =>
    match gen idx with
    | .ok _ => [.genCall, .fetch]
    | .genErr _ => .genCall :: retryTrace isR gen (idx + 1) b
    | .fetchErr e =>
      if isPermanentFetchErr isR e then [.genCall, .fetch]
      else .genCall :: .fetch :: retryTrace isR gen (idx + 1) b

/-- The event trace of one `flip` call: the whole retry loop, then
`ts.mu.Lock(); ts.token = token; ts.mu.Unlock()`. -/
def flipTrace (isR : Option (Err → Bool)) (gen : Nat → GenOutcome)
    (idx budget : Nat) : List LockEv :=
  retryTrace isR gen idx budget ++ [.lock, .cacheWrite, .unlock]

/-- The event trace of one `Token()` call: everything between
`ts.mu.Lock()` and the deferred `ts.mu.Unlock()` — including, on the
lazy-refresh path, the generator call and the fetch. -/
def tokenTrace (ts : AsyncRefreshingTokenSource) (gen : Nat → GenOutcome)
    (idx : Nat) (now : ℤ) : List LockEv :=
  if tokenValid now ts.token then [.lock, .unlock]
  else
    match gen idx with
    | .genErr _ => [.lock, .genCall, .unlock]
    | .fetchErr _ => [.lock, .genCall, .fetch, .unlock]
    | .ok _ => [.lock, .genCall, .fetch, .cacheWrite, .unlock]

/-- Does the trace perform a generator call or a fetch while the lock
is held?  (`held` is the lock state on entry.) -/
def ioWhileLocked : List LockEv → Bool → Bool
  | [], _ => false
  | .lock :: rest, _ => ioWhileLocked rest true
  | .unlock :: rest, _ => ioWhileLocked rest false
  | .genCall :: rest, held => held || ioWhileLocked rest held
  | .fetch :: rest, held => held || ioWhileLocked rest held
  | .cacheWrite :: rest, held => ioWhileLocked rest held

theorem splitComma_ne_nil (s : List Char) : splitComma s ≠ [] := by
  induction s with
  | nil => simp [splitComma]
  | cons c rest ih =>
    simp only [splitComma]
    split
    · simp
    · cases h : splitComma rest with
      | nil => simp
      | cons a as => simp

theorem joinComma_splitComma (s : List Char) : joinComma (splitComma s) = s := by
  induction s with
  | nil => simp [splitComma, joinComma]
  | cons c rest ih =>
    simp only [splitComma]
    split
    · rename_i hc
      subst hc
      cases h : splitComma rest with
      | nil => exact absurd h (splitComma_ne_nil rest)
      | cons a as =>
        rw [h] at ih
        simp [joinComma, ih]
    · cases h : splitComma rest with
      | nil => exact absurd h (splitComma_ne_nil rest)
      | cons a as =>
        rw [h] at ih
        cases as with
        | nil => simp [joinComma] at ih ⊢; simp [ih]
        | cons b bs => simp [joinComma] at ih ⊢; simp [ih]

theorem dropLast_append_lastSeg :
    ∀ (l : List (List Char)), l ≠ [] → l.dropLast ++ [lastSeg l] = l := by
  intro l
  induction l with
  | nil => intro h; exact absurd rfl h
  | cons a rest ih =>
    intro _
    cases rest with
    | nil => simp [lastSeg]
    | cons b bs =>
      have := ih (by simp)
      simp only [lastSeg, List.dropLast_cons₂, List.cons_append]
      rw [this]

/-- C10: for every non-empty string `s`, `parseDelegateChain` (and its
exported twin `ParseDelegateChain`) returns `targetPrincipal` equal to
the last comma-separated segment of `s` and `delegates` equal to all
preceding segments in order, so that joining `delegates ++
[targetPrincipal]` with `","` yields `s` back; it panics exactly when
`s` is empty. -/
theorem parseDelegateChain_spec (s : List Char) (h : s ≠ []) :
    parseDelegateChain s = some (lastSeg (splitComma s), (splitComma s).dropLast) ∧
    (splitComma s).dropLast ++ [lastSeg (splitComma s)] = splitComma s ∧
    joinComma ((splitComma s).dropLast ++ [lastSeg (splitComma s)]) = s ∧
    parseDelegateChain [] = none := by
  have hsplit := dropLast_append_lastSeg (splitComma s) (splitComma_ne_nil s)
  refine ⟨?_, hsplit, ?_, rfl⟩
  · simp [parseDelegateChain, h]
  · rw [hsplit]; exact joinComma_splitComma s

theorem parseDelegateChain_spec_witness :
    parseDelegateChain ['a', ',', 'b', ',', 'c']
        = some (lastSeg (splitComma ['a', ',', 'b', ',', 'c']),
                (splitComma ['a', ',', 'b', ',', 'c']).dropLast) ∧
    (splitComma ['a', ',', 'b', ',', 'c']).dropLast
        ++ [lastSeg (splitComma ['a', ',', 'b', ',', 'c'])]
        = splitComma ['a', ',', 'b', ',', 'c'] ∧
    joinComma ((splitComma ['a', ',', 'b', ',', 'c']).dropLast
        ++ [lastSeg (splitComma ['a', ',', 'b', ',', 'c'])])
        = ['a', ',', 'b', ',', 'c'] ∧
    parseDelegateChain [] = none :=
  parseDelegateChain_spec ['a', ',', 'b', ',', 'c'] (by decide)

/-! ## C5 — the lazy cache variant of `Token()` -/

/-- C5 as written claims the expired/absent path makes "exactly one
generator call followed by exactly one fetch"; when `genFunc` itself
returns an error, no fetch happens at all.  Concretely: cached token
`("t", expiry 100)` is expired at `now = 95` (oauth2's 10 s expiry
delta), the generator call fails, and the call performs one generator
call and zero fetches. -/
theorem tokenMethod_lazy_cex :
    tokenValid 95 (some ⟨"t", 100⟩) = false ∧
    (tokenMethod ⟨some ⟨"t", 100⟩, {}, none⟩ (fun _ => .genErr 3) 0 95).genCalls = 1 ∧
    (tokenMethod ⟨some ⟨"t", 100⟩, {}, none⟩ (fun _ => .genErr 3) 0 95).fetchCalls = 0 := by
  decide

/-- C5 (amended): `Token()` is the lazy cache variant: a valid cached
token is returned unchanged with nil error and no generator call; on an
expired/absent token the generator is invoked inline exactly once,
followed by at most one fetch (exactly one when the generator call
succeeds) and no backoff retries; on success the fetched token is
stored and returned, and on failure the error is returned with the
cached token unchanged. -/
theorem tokenMethod_lazy_spec (ts : AsyncRefreshingTokenSource)
    (gen : Nat → GenOutcome) (idx : Nat) (now : ℤ) :
    (tokenValid now ts.token = true →
      (tokenMethod ts gen idx now).newToken = ts.token ∧
      (tokenMethod ts gen idx now).genCalls = 0 ∧
      (tokenMethod ts gen idx now).fetchCalls = 0 ∧
      ∃ t, ts.token = some t ∧ (tokenMethod ts gen idx now).result = .ok t) ∧
    (tokenValid now ts.token = false →
      (tokenMethod ts gen idx now).genCalls = 1 ∧
      (tokenMethod ts gen idx now).fetchCalls ≤ 1 ∧
      (∀ t, gen idx = .ok t →
        (tokenMethod ts gen idx now).fetchCalls = 1 ∧
        (tokenMethod ts gen idx now).newToken = some t ∧
        (tokenMethod ts gen idx now).result = .ok t) ∧
      (∀ e, gen idx = .genErr e ∨ gen idx = .fetchErr e →
        (tokenMethod ts gen idx now).newToken = ts.token ∧
        (tokenMethod ts gen idx now).result = .error e)) := by
  obtain ⟨tok, conf, ctx⟩ := ts
  constructor
  · intro h
    cases tok with
    | none => simp [tokenValid] at h
    | some t =>
      refine ⟨?_, ?_, ?_, t, rfl, ?_⟩ <;> simp [tokenMethod, h]
  · intro h
    have hsplit : tokenMethod ⟨tok, conf, ctx⟩ gen idx now =
        match gen idx with
        | .genErr e => ⟨tok, .error e, 1, 0, some ctx⟩
        | .fetchErr e => ⟨tok, .error e, 1, 1, some ctx⟩
        | .ok t => ⟨some t, .ok t, 1, 1, some ctx⟩ := by
      simp only [tokenMethod]
      rw [dif_neg]
      simp [h]
    refine ⟨?_, ?_, ?_, ?_⟩
    · rw [hsplit]; cases gen idx <;> rfl
    · rw [hsplit]; cases gen idx <;> simp
    · intro t ht; rw [hsplit, ht]; exact ⟨rfl, rfl, rfl⟩
    · intro e he
      rcases he with he | he <;> rw [hsplit, he] <;> exact ⟨rfl, rfl⟩

/-- C5 witness: a valid token (`now = 50`) is served with no generator
call; an expired one (`now = 95`) triggers exactly one inline generator
call and fetch whose token is stored and returned. -/
theorem tokenMethod_lazy_spec_witness :
    ((tokenMethod ⟨some ⟨"t", 100⟩, {}, none⟩ (fun _ => .ok ⟨"u", 200⟩) 0 50).genCalls = 0 ∧
      (tokenMethod ⟨some ⟨"t", 100⟩, {}, none⟩ (fun _ => .ok ⟨"u", 200⟩) 0 50).newToken
        = some ⟨"t", 100⟩) ∧
    ((tokenMethod ⟨some ⟨"t", 100⟩, {}, none⟩ (fun _ => .ok ⟨"u", 200⟩) 0 95).genCalls = 1 ∧
      (tokenMethod ⟨some ⟨"t", 100⟩, {}, none⟩ (fun _ => .ok ⟨"u", 200⟩) 0 95).fetchCalls = 1 ∧
      (tokenMethod ⟨some ⟨"t", 100⟩, {}, none⟩ (fun _ => .ok ⟨"u", 200⟩) 0 95).newToken
        = some ⟨"u", 200⟩ ∧
      (tokenMethod ⟨some ⟨"t", 100⟩, {}, none⟩ (fun _ => .ok ⟨"u", 200⟩) 0 95).result
        = .ok ⟨"u", 200⟩) := by
  have hvalid := (tokenMethod_lazy_spec ⟨some ⟨"t", 100⟩, {}, none⟩
    (fun _ => .ok ⟨"u", 200⟩) 0 50).1 (by decide)
  have hlazy := (tokenMethod_lazy_spec ⟨some ⟨"t", 100⟩, {}, none⟩
    (fun _ => .ok ⟨"u", 200⟩) 0 95).2 (by decide)
  have hok := hlazy.2.2.1 ⟨"u", 200⟩ rfl
  exact ⟨⟨hvalid.2.1, hvalid.1⟩, hlazy.1, hok.1, hok.2.1, hok.2.2⟩

/-! ## C2 — retry behaviour when `IsRetryable` is unset or all-false -/

/-- C2: `flip` wraps only *fetch* errors in `backoff.Permanent`; an
error from `ts.genFunc(ctx)` itself is returned plain, so
`backoff.Retry` retries it whenever the backoff policy still yields a
delay — regardless of `IsRetryable`.  With `IsRetryable` unset (or
all-false) and a backoff allowing one more attempt (the default
`NewExponentialBackOff` always allows the first retry), a failing
generator call is called twice in a single refresh attempt.  A fetch
error, by contrast, is permanent as documented. -/
theorem flipRetry_genErr_retried_cex :
    (flipRetry none (fun _ => .genErr 3) 0 1).genCalls = 2 ∧
    (flipRetry (some fun _ => false) (fun _ => .genErr 3) 0 1).genCalls = 2 ∧
    (flipRetry none (fun _ => .fetchErr 3) 0 1).genCalls = 1 ∧
    (flipRetry (some fun _ => false) (fun _ => .fetchErr 3) 0 1).genCalls = 1 := by
  decide

/-! ## C3 — which context reaches the generator -/

/-- C3: the struct field `ctx` is documented as storing the
construction context for `Token()`'s benefit, but no code ever assigns
it.  Constructing with context `42`: the synchronous first fetch and
the background `flip` do receive context `42`, but the lazy refresh
inside `Token()` calls the generator with the nil (zero-value) context.
(The cached token here has an empty access token, so `Token()` takes
the lazy-refresh path.) -/
theorem ctx_field_never_stored_cex :
    ∃ ts, (NewAsyncRefreshingTokenSource 0 (some 42) {} (fun _ => .ok ⟨"", 0⟩)).ts = some ts ∧
      ts.ctx = none ∧
      (tokenMethod ts (fun _ => .genErr 3) 1 0).genCalls = 1 ∧
      (tokenMethod ts (fun _ => .genErr 3) 1 0).ctxPassed = some none ∧
      (flip none 0 (some 42) (fun _ => .ok ⟨"", 0⟩) 0).ctxPassed = some 42 := by
  refine ⟨_, rfl, rfl, ?_, ?_, rfl⟩ <;> decide

/-! ## C1 — what a permanently failing background refresh does to the cache -/

/-- C1: in `flip`, `ts.token = token` runs before the error check; when
the retry loop fails permanently the local `token` is still nil, so the
cached token is overwritten with nil rather than left unchanged.
Concretely: a running scheduler holds token `("t", 100)` (valid at
`now = 50`); its expiry-timer refresh fires, the fetch fails with a
permanent error (`IsRetryable` unset), and afterwards the cache is
empty — `Token()` would no longer serve the old token — while the
scheduler indeed keeps running (not stopped). -/
theorem flip_failure_clears_token_cex :
    (flip none 5 (some 1) (fun _ => .fetchErr 7) 0).err = some 7 ∧
    (flip none 5 (some 1) (fun _ => .fetchErr 7) 0).newToken = none ∧
    (runStep (some 1) (fun _ => .fetchErr 7) ⟨0, 1⟩
        ⟨⟨some ⟨"t", 100⟩, {}, none⟩, some 70, false, 1⟩ .expiryFired).ts.token = none ∧
    (runStep (some 1) (fun _ => .fetchErr 7) ⟨0, 1⟩
        ⟨⟨some ⟨"t", 100⟩, {}, none⟩, some 70, false, 1⟩ .expiryFired).stopped = false ∧
    tokenValid 50 (some ⟨"t", 100⟩) = true ∧
    tokenValid 50 none = false := by
  decide

/-! ## C6 — the synchronous first fetch in the constructor -/

theorem flipRetry_genCalls_pos (isR : Option (Err → Bool)) (gen : Nat → GenOutcome)
    (idx budget : Nat) : 1 ≤ (flipRetry isR gen idx budget).genCalls := by
  rw [flipRetry.eq_def]
  cases hgen : gen idx with
  | ok t => simp [hgen]
  | genErr e => cases budget <;> simp [hgen]
  | fetchErr e =>
    by_cases hp : isPermanentFetchErr isR e
    · simp [hgen, hp]
    · cases budget <;> simp [hgen, hp]

/-- C6 as written claims the constructor makes "exactly one generator
call"; when the first fetch fails with a retryable error the retry
loop calls the generator again.  Concretely: `IsRetryable` always true,
backoff allowing one retry, first fetch fails, second succeeds — the
constructor returns successfully after two generator calls. -/
theorem NewAsync_one_call_cex :
    (NewAsyncRefreshingTokenSource 0 (some 1)
        { backoffBudget := some 1, isRetryable := some fun _ => true }
        (fun n => if n = 0 then .fetchErr 5 else .ok ⟨"t", 100⟩)).genCalls = 2 ∧
    (NewAsyncRefreshingTokenSource 0 (some 1)
        { backoffBudget := some 1, isRetryable := some fun _ => true }
        (fun n => if n = 0 then .fetchErr 5 else .ok ⟨"t", 100⟩)).err = none := by
  decide

/-- C6 (amended): `NewAsyncRefreshingTokenSource` performs one
synchronous fetch attempt — at least one generator call, exactly as
many as the retry loop makes — before returning; it returns an error
(and no token source, hence no background task) if and only if that
first synchronous fetch fails after exhausting retries, and the error
is the fetch's error verbatim. -/
theorem NewAsync_spec (defaultBudget : Nat) (ctx : CtxHandle)
    (conf : AsyncRefreshingConfig) (gen : Nat → GenOutcome) :
    1 ≤ (NewAsyncRefreshingTokenSource defaultBudget ctx conf gen).genCalls ∧
    (NewAsyncRefreshingTokenSource defaultBudget ctx conf gen).genCalls =
      (flipRetry conf.isRetryable gen 0 (conf.backoffBudget.getD defaultBudget)).genCalls ∧
    (∀ e,
      (flipRetry conf.isRetryable gen 0 (conf.backoffBudget.getD defaultBudget)).result
          = .error e →
      (NewAsyncRefreshingTokenSource defaultBudget ctx conf gen).err = some e ∧
      (NewAsyncRefreshingTokenSource defaultBudget ctx conf gen).ts = none) ∧
    (∀ t,
      (flipRetry conf.isRetryable gen 0 (conf.backoffBudget.getD defaultBudget)).result
          = .ok t →
      (NewAsyncRefreshingTokenSource defaultBudget ctx conf gen).err = none ∧
      ∃ b, (NewAsyncRefreshingTokenSource defaultBudget ctx conf gen).ts = some b ∧
        b.token = some t) := by
  refine ⟨?_, ?_, ?_, ?_⟩
  · cases hres : (flipRetry conf.isRetryable gen 0 (conf.backoffBudget.getD defaultBudget)).result <;>
      simpa [NewAsyncRefreshingTokenSource, flip, hres] using
        flipRetry_genCalls_pos conf.isRetryable gen 0 (conf.backoffBudget.getD defaultBudget)
  · cases hres : (flipRetry conf.isRetryable gen 0 (conf.backoffBudget.getD defaultBudget)).result <;>
      simp [NewAsyncRefreshingTokenSource, flip, hres]
  · intro e hres
    simp [NewAsyncRefreshingTokenSource, flip, hres]
  · intro t hres
    simp [NewAsyncRefreshingTokenSource, flip, hres]

/-- C6 witness: with a trivially succeeding generator the constructor
makes one generator call, returns no error and a source caching the
fetched token; the counterexample theorem covers the error side. -/
theorem NewAsync_spec_witness :
    (NewAsyncRefreshingTokenSource 0 (some 1) {} (fun _ => .ok ⟨"t", 100⟩)).err = none ∧
    (NewAsyncRefreshingTokenSource 0 (some 1) {} (fun _ => .ok ⟨"t", 100⟩)).genCalls = 1 ∧
    ∃ b, (NewAsyncRefreshingTokenSource 0 (some 1) {} (fun _ => .ok ⟨"t", 100⟩)).ts = some b ∧
      b.token = some ⟨"t", 100⟩ := by
  have h := NewAsync_spec 0 (some 1) {} (fun _ => .ok ⟨"t", 100⟩)
  have hok := h.2.2.2 ⟨"t", 100⟩ rfl
  refine ⟨hok.1, ?_, hok.2⟩
  rw [h.2.1]
  decide

/-! ## C7 — arming of the expiry timer -/

theorem flip_genCalls_pos (isR : Option (Err → Bool)) (budget : Nat) (ctx : CtxHandle)
    (gen : Nat → GenOutcome) (idx : Nat) : 1 ≤ (flip isR budget ctx gen idx).genCalls := by
  have h := flipRetry_genCalls_pos isR gen idx budget
  cases hres : (flipRetry isR gen idx budget).result <;> simpa [flip, hres] using h

/-- C7: the expiry wait channel is armed iff `MarginBeforeExpiry` is
non-zero and the last expiry is non-zero; with margin jitter factor 0,
margin `M` and expiry `T` it is armed for time `T - M`; and when the
armed channel fires, the background loop performs a refresh attempt (at
least one generator call) — ticks are irrelevant to it (the running
loop reaches `flip` from `waitUntilExpiryC` directly, whatever the
periodic timer would do). -/
theorem handleExpiry_margin_spec (conf : AsyncRefreshingConfig) (u : Frac) (expiry : ℤ)
    (ctx : CtxHandle) (gen : Nat → GenOutcome) (st : RunState) (t : ℤ) :
    ((handleExpiry conf u expiry).isSome ↔ (conf.marginBeforeExpiry ≠ 0 ∧ expiry ≠ 0)) ∧
    (conf.randomizationFactorForMarginBeforeExpiry.num = 0 →
      conf.marginBeforeExpiry ≠ 0 → expiry ≠ 0 →
      handleExpiry conf u expiry = some (expiry - conf.marginBeforeExpiry)) ∧
    (st.stopped = false → st.waitUntilExpiryC = some t →
      st.genIdx + 1 ≤ (runStep ctx gen u st .expiryFired).genIdx) := by
  refine ⟨?_, ?_, ?_⟩
  · unfold handleExpiry
    split <;> rename_i h
    · exact iff_of_true (by simp) h
    · exact iff_of_false (by simp) h
  · intro hnum hm he
    simp only [handleExpiry, hm, he, and_true, ne_eq, not_false_iff, if_pos, hnum,
      zero_mul, Int.zero_tdiv, mul_zero]
    congr 1
    omega
  · intro h1 h2
    have := flip_genCalls_pos st.ts.conf.isRetryable (st.ts.conf.backoffBudget.getD 0)
      ctx gen st.genIdx
    simp only [runStep, h1, h2, Bool.false_eq_true, if_false]
    omega

/-- C7 witness: margin 30, jitter factor 0, expiry 100: the channel is
armed for time 70; the margin-less config arms nothing; a firing armed
channel bumps the background generator-call count. -/
theorem handleExpiry_margin_spec_witness :
    handleExpiry { marginBeforeExpiry := 30 } ⟨1, 2⟩ 100 = some 70 ∧
    (handleExpiry {} ⟨1, 2⟩ 100).isSome = false ∧
    1 + 1 ≤ (runStep (some 1) (fun _ => .ok ⟨"u", 200⟩) ⟨1, 2⟩
      ⟨⟨some ⟨"t", 100⟩, { marginBeforeExpiry := 30 }, none⟩, some 70, false, 1⟩
      .expiryFired).genIdx := by
  refine ⟨?_, ?_, ?_⟩
  · exact (handleExpiry_margin_spec { marginBeforeExpiry := 30 } ⟨1, 2⟩ 100 (some 1)
      (fun _ => .ok ⟨"u", 200⟩)
      ⟨⟨some ⟨"t", 100⟩, { marginBeforeExpiry := 30 }, none⟩, some 70, false, 1⟩ 70).2.1
      (by decide) (by decide) (by decide)
  · have h := (handleExpiry_margin_spec {} ⟨1, 2⟩ 100 (some 1)
      (fun _ => .ok ⟨"u", 200⟩)
      ⟨⟨some ⟨"t", 100⟩, { marginBeforeExpiry := 30 }, none⟩, some 70, false, 1⟩ 70).1
    rw [← Bool.not_eq_true, h]
    decide
  · exact (handleExpiry_margin_spec { marginBeforeExpiry := 30 } ⟨1, 2⟩ 100 (some 1)
      (fun _ => .ok ⟨"u", 200⟩)
      ⟨⟨some ⟨"t", 100⟩, { marginBeforeExpiry := 30 }, none⟩, some 70, false, 1⟩ 70).2.2
      rfl rfl

/-! ## C8 — ticks are ignored while the expiry timer is pending -/

/-- C8: while `waitUntilExpiryC` is armed, a firing of the periodic
ticker leaves the loop state completely unchanged (`continue loop`): no
refresh attempt, no generator call, no cache write. -/
theorem runStep_tick_ignored (ctx : CtxHandle) (gen : Nat → GenOutcome) (u : Frac)
    (st : RunState) (t : ℤ) (h1 : st.stopped = false)
    (h2 : st.waitUntilExpiryC = some t) :
    runStep ctx gen u st .tick = st := by
  simp [runStep, h1, h2]

/-- C8 witness: a concrete running state with an armed expiry channel
absorbs a tick unchanged. -/
theorem runStep_tick_ignored_witness :
    runStep (some 1) (fun _ => .ok ⟨"u", 200⟩) ⟨1, 2⟩
      ⟨⟨some ⟨"t", 100⟩, {}, none⟩, some 70, false, 1⟩ .tick
    = ⟨⟨some ⟨"t", 100⟩, {}, none⟩, some 70, false, 1⟩ :=
  runStep_tick_ignored (some 1) (fun _ => .ok ⟨"u", 200⟩) ⟨1, 2⟩
    ⟨⟨some ⟨"t", 100⟩, {}, none⟩, some 70, false, 1⟩ 70 rfl rfl

/-! ## C4 — behaviour after the cancellation signal -/

/-- C4 as written claims that after cancellation no generator call
happens through *any* path and `Token()` always returns the cached
token with nil error.  But `Token()` ignores the cancellation state:
once the cached token expires (here `("t", 100)` at `now = 95`), a
`Token()` call on the stopped source still invokes the generator,
writes the cache, and returns the *new* token. -/
theorem run_after_cancel_cex :
    (runStep (some 1) (fun _ => .ok ⟨"u", 200⟩) ⟨1, 2⟩
        ⟨⟨some ⟨"t", 100⟩, {}, none⟩, none, false, 1⟩ .ctxDone).stopped = true ∧
    (tokenMethod ⟨some ⟨"t", 100⟩, {}, none⟩ (fun _ => .ok ⟨"u", 200⟩) 1 95).genCalls = 1 ∧
    (tokenMethod ⟨some ⟨"t", 100⟩, {}, none⟩ (fun _ => .ok ⟨"u", 200⟩) 1 95).newToken
      ≠ some ⟨"t", 100⟩ ∧
    (tokenMethod ⟨some ⟨"t", 100⟩, {}, none⟩ (fun _ => .ok ⟨"u", 200⟩) 1 95).result
      = .ok ⟨"u", 200⟩ :=
  ⟨rfl, rfl, by decide, rfl⟩

/-- C4 (amended): after the cancellation signal the background task
exits at the next timer race, and the stopped loop makes no further
generator calls or cache writes; `Token()` keeps returning the last
cached token with a nil error as long as that token is valid — but an
expired or absent cached token still triggers `Token()`'s inline lazy
refresh, which calls the generator and may write the cache. -/
theorem run_after_cancel_spec :
    (∀ (ctx : CtxHandle) (gen : Nat → GenOutcome) (u : Frac) (st : RunState),
      st.stopped = false →
      runStep ctx gen u st .ctxDone = { st with stopped := true }) ∧
    (∀ (ctx : CtxHandle) (gen : Nat → GenOutcome) (u : Frac) (st : RunState)
        (ev : RunEvent), st.stopped = true → runStep ctx gen u st ev = st) ∧
    (∀ (ts : AsyncRefreshingTokenSource) (gen : Nat → GenOutcome) (idx : Nat) (now : ℤ),
      tokenValid now ts.token = true →
      (tokenMethod ts gen idx now).genCalls = 0 ∧
      (tokenMethod ts gen idx now).newToken = ts.token ∧
      ∃ t, ts.token = some t ∧ (tokenMethod ts gen idx now).result = .ok t) := by
  refine ⟨?_, ?_, ?_⟩
  · intro ctx gen u st h
    simp [runStep, h]
  · intro ctx gen u st ev h
    simp [runStep, h]
  · intro ts gen idx now h
    obtain ⟨tok, conf, ctx⟩ := ts
    cases tok with
    | none => simp [tokenValid] at h
    | some t =>
      refine ⟨?_, ?_, t, rfl, ?_⟩ <;> simp [tokenMethod, h]

/-- C4 witness: cancelling a concrete running state stops it, every
event then leaves it unchanged, and `Token()` on its still-valid cached
token serves that token without a generator call. -/
theorem run_after_cancel_spec_witness :
    runStep (some 1) (fun _ => .ok ⟨"u", 200⟩) ⟨1, 2⟩
        ⟨⟨some ⟨"t", 100⟩, {}, none⟩, none, false, 1⟩ .ctxDone
      = ⟨⟨some ⟨"t", 100⟩, {}, none⟩, none, true, 1⟩ ∧
    runStep (some 1) (fun _ => .ok ⟨"u", 200⟩) ⟨1, 2⟩
        ⟨⟨some ⟨"t", 100⟩, {}, none⟩, none, true, 1⟩ .tick
      = ⟨⟨some ⟨"t", 100⟩, {}, none⟩, none, true, 1⟩ ∧
    (tokenMethod ⟨some ⟨"t", 100⟩, {}, none⟩ (fun _ => .ok ⟨"u", 200⟩) 1 50).genCalls = 0 ∧
    (tokenMethod ⟨some ⟨"t", 100⟩, {}, none⟩ (fun _ => .ok ⟨"u", 200⟩) 1 50).result
      = .ok ⟨"t", 100⟩ := by
  have h := run_after_cancel_spec
  have h3 := h.2.2 ⟨some ⟨"t", 100⟩, {}, none⟩ (fun _ => .ok ⟨"u", 200⟩) 1 50 (by decide)
  obtain ⟨t, ht, hres⟩ := h3.2.2
  cases ht
  exact ⟨h.1 (some 1) (fun _ => .ok ⟨"u", 200⟩) ⟨1, 2⟩ _ rfl,
    h.2.1 (some 1) (fun _ => .ok ⟨"u", 200⟩) ⟨1, 2⟩ _ .tick rfl, h3.1, hres⟩

/-! ## C9 — what runs while the readers' lock is held -/

theorem retryTrace_only_io (isR : Option (Err → Bool)) (gen : Nat → GenOutcome) :
    ∀ (budget idx : Nat) (e : LockEv), e ∈ retryTrace isR gen idx budget →
      e = .genCall ∨ e = .fetch := by
  intro budget
  induction budget with
  | zero =>
    intro idx e he
    unfold retryTrace at he
    cases hgen : gen idx <;> rw [hgen] at he <;> simp at he
    · exact Or.inl he
    · exact he.imp (fun h => h) (fun h => h)
    · exact he.imp (fun h => h) (fun h => h)
  | succ b ih =>
    intro idx e he
    unfold retryTrace at he
    cases hgen : gen idx <;> rw [hgen] at he
    · simp at he
      rcases he with h | h
      · exact Or.inl h
      · exact ih (idx + 1) e h
    · rename_i e'
      by_cases hp : isPermanentFetchErr isR e'
      · simp [hp] at he
        exact he.imp (fun h => h) (fun h => h)
      · simp [hp] at he
        rcases he with h | h | h
        · exact Or.inl h
        · exact Or.inr h
        · exact ih (idx + 1) e h
    · simp at he
      exact he.imp (fun h => h) (fun h => h)

theorem ioWhileLocked_append_unlocked (tr rest : List LockEv)
    (h : ∀ e ∈ tr, e = .genCall ∨ e = .fetch) :
    ioWhileLocked (tr ++ rest) false = ioWhileLocked rest false := by
  induction tr with
  | nil => rfl
  | cons a tl ih =>
    have ha := h a (by simp)
    have htl : ∀ e ∈ tl, e = .genCall ∨ e = .fetch := fun e he => h e (by simp [he])
    rcases ha with ha | ha <;> subst ha <;>
      simpa [ioWhileLocked] using ih htl

/-- C9 as written claims the generator invocation and fetch never run
while the readers' lock is held.  `Token()` holds `ts.mu` for its whole
body, including the lazy refresh: on an expired cached token the
generator call and fetch happen inside the critical section, so a
concurrent `Token()` reader is blocked for the duration of that I/O. -/
theorem token_io_under_lock_cex :
    ioWhileLocked
      (tokenTrace ⟨some ⟨"t", 100⟩, {}, none⟩ (fun _ => .ok ⟨"u", 200⟩) 0 95) false
      = true := by
  decide

/-- C9 (amended): the background refresh `flip` performs every
generator invocation and fetch outside `ts.mu` (taking the lock only
for the cache write), and `Token()` on a valid cached token does no I/O
under the lock; but `Token()`'s lazy refresh on an expired/absent token
performs its generator call (and fetch) while holding `ts.mu`, blocking
concurrent readers during that I/O. -/
theorem refresh_io_lock_spec :
    (∀ (isR : Option (Err → Bool)) (gen : Nat → GenOutcome) (idx budget : Nat),
      ioWhileLocked (flipTrace isR gen idx budget) false = false) ∧
    (∀ (ts : AsyncRefreshingTokenSource) (gen : Nat → GenOutcome) (idx : Nat) (now : ℤ),
      tokenValid now ts.token = true →
      ioWhileLocked (tokenTrace ts gen idx now) false = false) ∧
    (∀ (ts : AsyncRefreshingTokenSource) (gen : Nat → GenOutcome) (idx : Nat) (now : ℤ),
      tokenValid now ts.token = false →
      ioWhileLocked (tokenTrace ts gen idx now) false = true) := by
  refine ⟨?_, ?_, ?_⟩
  · intro isR gen idx budget
    unfold flipTrace
    rw [ioWhileLocked_append_unlocked _ _
      (fun e he => retryTrace_only_io isR gen budget idx e he)]
    rfl
  · intro ts gen idx now h
    simp [tokenTrace, h, ioWhileLocked]
  · intro ts gen idx now h
    cases hgen : gen idx <;> simp [tokenTrace, h, hgen, ioWhileLocked]

/-- C9 witness: a concrete background refresh (one failed fetch, one
retry) does all its I/O outside the lock, and a `Token()` call on a
valid token does no I/O at all. -/
theorem refresh_io_lock_spec_witness :
    ioWhileLocked
        (flipTrace (some fun _ => true)
          (fun n => if n = 0 then .fetchErr 5 else .ok ⟨"u", 200⟩) 0 1) false = false ∧
    ioWhileLocked
        (tokenTrace ⟨some ⟨"t", 100⟩, {}, none⟩ (fun _ => .ok ⟨"u", 200⟩) 0 50) false
      = false ∧
    ioWhileLocked
        (tokenTrace ⟨some ⟨"t", 100⟩, {}, none⟩ (fun _ => .ok ⟨"u", 200⟩) 0 95) false
      = true := by
  refine ⟨refresh_io_lock_spec.1 (some fun _ => true)
      (fun n => if n = 0 then .fetchErr 5 else .ok ⟨"u", 200⟩) 0 1,
    refresh_io_lock_spec.2.1 ⟨some ⟨"t", 100⟩, {}, none⟩
      (fun _ => .ok ⟨"u", 200⟩) 0 50 (by decide),
    refresh_io_lock_spec.2.2 ⟨some ⟨"t", 100⟩, {}, none⟩
      (fun _ => .ok ⟨"u", 200⟩) 0 95 (by decide)⟩

end Tokensource
